import Mathlib

/-!
Verification of the Octopus IPC/OTSM service against its specification.

The C++/C sources are shallowly embedded: machine integers become `Nat`
(with explicit `% 256` / bounds where the code casts), `std::vector<uint8_t>`
becomes `List Nat`, and each translated definition keeps the source's name.
-/

namespace Octopus

/-! ## IPC framed message (src/src/IPC/octopus_ipc_ptl.cpp)

`DataMessage` carries `header : uint16_t`, `group : uint8_t`, `msg : uint8_t`,
`length : uint16_t`, `data : std::vector<uint8_t>`.  Fields are modelled as
`Nat`; the C++ type bounds appear as hypotheses where they matter. -/

structure DataMessage where
  header : Nat
  group : Nat
  msg : Nat
  length : Nat
  data : List Nat
deriving Repr, DecidableEq

/-- The fixed header sentinel `_HEADER_ = 0xA5A5`. -/
def HEADER : Nat := 0xA5A5

/-- The default constructor `DataMessage()`: header preset to `_HEADER_`,
all other fields zero / empty. -/
def DataMessage.mkDefault : DataMessage :=
  { header := HEADER, group := 0, msg := 0, length := 0, data := [] }

/-- `sizeof(header)+sizeof(group)+sizeof(msg)+sizeof(length) = 6`. -/
def baseSize : Nat := 6

/-- `DataMessage::serializeMessage`: header high/low byte, group, msg,
length high/low byte, then the data bytes.  The casts
`static_cast<uint8_t>(x >> 8)` become `(x >>> 8) % 256`. -/
def DataMessage.serializeMessage (m : DataMessage) : List Nat :=
  (m.header >>> 8) % 256 :: m.header % 256 ::
  m.group :: m.msg ::
  (m.length >>> 8) % 256 :: m.length % 256 ::
  m.data

/-- `DataMessage::deserializeMessage`: a buffer shorter than `baseSize`
returns the default-constructed message; otherwise header, group, msg and
length are decoded, and the data bytes are copied only when the buffer holds
at least `baseSize + length` bytes (otherwise `data` stays empty). -/
def DataMessage.deserializeMessage (buffer : List Nat) : DataMessage :=
  match buffer with
  | b0 :: b1 :: b2 :: b3 :: b4 :: b5 :: rest =>
    let len := b4 * 256 + b5
    { header := b0 * 256 + b1
      group := b2
      msg := b3
      length := len
      data := if baseSize + len ≤ buffer.length then rest.take len else [] }
  | _ => DataMessage.mkDefault

/-- `DataMessage::isValid`: header matches the sentinel and the length field
equals the data size.  The source also tests `group >= 0 && msg >= 0`, which
is vacuous on the unsigned `uint8_t` fields and is kept here as the equally
vacuous `0 ≤ _` tests. -/
def DataMessage.isValid (m : DataMessage) : Bool :=
  m.header == HEADER && m.length == m.data.length
    && decide (0 ≤ m.group) && decide (0 ≤ m.msg)

/-- The decoded header of a (≥ 2 byte) buffer: `(buffer[0] << 8) | buffer[1]`. -/
def decodedHeader (buffer : List Nat) : Nat :=
  buffer.getD 0 0 * 256 + buffer.getD 1 0

/-- The decoded LENGTH field of a (≥ 6 byte) buffer:
`(buffer[4] << 8) | buffer[5]`. -/
def decodedLength (buffer : List Nat) : Nat :=
  buffer.getD 4 0 * 256 + buffer.getD 5 0

/-- Splitting a `uint16_t` into bytes and recombining is the identity. -/
theorem byte_split_recombine (n : Nat) (h : n < 65536) :
    (n >>> 8) % 256 * 256 + n % 256 = n := by
  rw [Nat.shiftRight_eq_div_pow]
  have hdiv : n / 2 ^ 8 < 256 := by omega
  rw [Nat.mod_eq_of_lt hdiv]
  omega

/-- **C1.** Round-trip: for a well-formed message (header `0xA5A5`, length
field equal to the data size, length within `uint16_t`), deserializing the
serialization returns the message itself — hence header, group, msg, length
and data all agree. -/
theorem serialize_deserialize_roundtrip (m : DataMessage)
    (hh : m.header = HEADER) (hl : m.length = m.data.length)
    (hlen : m.length < 65536) :
    DataMessage.deserializeMessage (DataMessage.serializeMessage m) = m := by
  have hh16 : m.header < 65536 := by rw [hh]; decide
  have hhdr := byte_split_recombine m.header hh16
  have hlenr := byte_split_recombine m.length hlen
  cases m with
  | mk header group msg len data =>
    simp only at hh hl hlen hhdr hlenr
    simp only [DataMessage.serializeMessage, DataMessage.deserializeMessage,
      DataMessage.mk.injEq, List.length_cons, baseSize]
    refine ⟨hhdr, trivial, trivial, hlenr, ?_⟩
    rw [if_pos (by rw [hlenr]; omega), hlenr, hl]
    simp

/-- Witness for C1 at a concrete message. -/
theorem serialize_deserialize_roundtrip_witness :
    DataMessage.deserializeMessage
      (DataMessage.serializeMessage ⟨HEADER, 11, 101, 2, [0, 80]⟩)
      = ⟨HEADER, 11, 101, 2, [0, 80]⟩ :=
  serialize_deserialize_roundtrip ⟨HEADER, 11, 101, 2, [0, 80]⟩
    rfl rfl (by decide)

/-- **C2, counterexample.** A truncated input (5 bytes, shorter than the
6-byte base) does NOT come back as an error result: `deserializeMessage`
returns the default-constructed message, whose preset `0xA5A5` header and
empty data make `isValid()` return `true`. -/
theorem deserialize_truncated_passes_isValid :
    (DataMessage.deserializeMessage [0, 0, 0, 0, 0]).isValid = true := by
  decide

/-- **C2, amended.** `deserializeMessage` is total (never throws).  An input
shorter than 6 bytes returns the default-constructed message, which
`isValid()` accepts; for an input of at least 6 bytes, an invalid header or
a buffer shorter than `6 + LENGTH` yields a message failing `isValid()`. -/
theorem deserialize_error_cases (buffer : List Nat) :
    (buffer.length < 6 →
      DataMessage.deserializeMessage buffer = DataMessage.mkDefault) ∧
    (6 ≤ buffer.length →
      (decodedHeader buffer ≠ HEADER ∨ buffer.length < 6 + decodedLength buffer) →
      (DataMessage.deserializeMessage buffer).isValid = false) := by
  rcases buffer with _ | ⟨b0, _ | ⟨b1, _ | ⟨b2, _ | ⟨b3, _ | ⟨b4, _ | ⟨b5, rest⟩⟩⟩⟩⟩⟩
  case nil => exact ⟨fun _ => rfl, by intro h; simp at h⟩
  case cons.nil => exact ⟨fun _ => rfl, by intro h; simp at h⟩
  case cons.cons.nil => exact ⟨fun _ => rfl, by intro h; simp at h⟩
  case cons.cons.cons.nil => exact ⟨fun _ => rfl, by intro h; simp at h⟩
  case cons.cons.cons.cons.nil => exact ⟨fun _ => rfl, by intro h; simp at h⟩
  case cons.cons.cons.cons.cons.nil => exact ⟨fun _ => rfl, by intro h; simp at h⟩
  constructor
  · intro hshort
    simp only [List.length_cons] at hshort
    omega
  · intro _ hbad
    simp only [decodedHeader, decodedLength, List.getD_cons_succ,
      List.getD_cons_zero, List.length_cons] at hbad
    simp only [DataMessage.deserializeMessage, DataMessage.isValid,
      List.length_cons, baseSize]
    rcases hbad with hbad | hbad
    · have hb : ((b0 * 256 + b1 : Nat) == HEADER) = false := by
        simpa using hbad
      simp [hb]
    · have hnotle : ¬ (6 + (b4 * 256 + b5) ≤ rest.length + 1 + 1 + 1 + 1 + 1 + 1) := by
        omega
      rw [if_neg hnotle]
      have hpos : b4 * 256 + b5 ≠ 0 := by omega
      simp [hpos]

/-- Witness for C2's amended theorem: a 6-byte buffer with a zero header is
rejected by `isValid`. -/
theorem deserialize_error_cases_witness :
    (DataMessage.deserializeMessage [0, 0, 0, 0, 0, 0]).isValid = false :=
  (deserialize_error_cases [0, 0, 0, 0, 0, 0]).2 (by decide) (Or.inl (by decide))

/-! ## Streaming packet scanner (src/src/APP/octopus_ipc_app_client.cpp)

`ipc_check_complete_data_packet` first overwrites the caller message's
`group` and `msg` with `-1` — which on the `uint8_t` fields stores 255 —
then scans up to `max_scan = 20` positions for the `0xA5A5` header, trims
junk, and extracts one complete message when the buffer holds it. -/

/-- The header-scan loop: the first index `i` with `i + 1 < buffer.size()`,
`i < max_scan = 20`, and `(buffer[i] << 8 | buffer[i+1]) == 0xA5A5`. -/
def scanHeaderIdx (buffer : List Nat) : Option Nat :=
  (List.range (min 20 (buffer.length - 1))).find?
    (fun i => buffer.getD i 0 * 256 + buffer.getD (i + 1) 0 == HEADER)

/-- `ipc_check_complete_data_packet(buffer, query_msg)`: returns the updated
buffer and the returned message.  Early-return paths hand back the caller's
message with `group = msg = 255` (the `uint8_t` wrap of the `-1` "reset");
a complete, `isValid` message is removed from the buffer and returned. -/
def ipc_check_complete_data_packet (buffer : List Nat) (query : DataMessage) :
    List Nat × DataMessage :=
  let query := { query with group := 255, msg := 255 }
  if buffer.length < baseSize then (buffer, query)
  else
    match scanHeaderIdx buffer with
    | none => (buffer.drop (min buffer.length 20), query)
    | some i =>
      let buffer := buffer.drop i
      if buffer.length < baseSize then (buffer, query)
      else
        let len := buffer.getD 4 0 * 256 + buffer.getD 5 0
        let total := baseSize + len
        if buffer.length < total then (buffer, query)
        else
          let msg := DataMessage.deserializeMessage buffer
          if msg.isValid = false then (buffer, msg)
          else (buffer.drop total, msg)

/-- **C5.** Evaluating the scanner at the failing inputs.  (a) Fed 21 junk
bytes and the receive loop's freshly constructed message, the scan window is
trimmed — but the returned message (header preset to `0xA5A5`, empty data,
`group = msg = 255` since the `-1` reset wraps on `uint8_t`) PASSES
`isValid()`, so the receive loop dispatches a false frame from pure junk.
(b) With exactly 20 junk bytes before a valid frame, the junk is consumed
but the header is not found in that call (`i < 20` stops at index 19): the
complete message is left in the buffer unextracted and the flagged query
message is returned instead. -/
theorem check_packet_junk_behaviour :
    ((ipc_check_complete_data_packet (List.replicate 21 0)
        DataMessage.mkDefault).1 = [0] ∧
      (ipc_check_complete_data_packet (List.replicate 21 0)
        DataMessage.mkDefault).2.isValid = true ∧
      (ipc_check_complete_data_packet (List.replicate 21 0)
        DataMessage.mkDefault).2.group = 255) ∧
    ((ipc_check_complete_data_packet
        (List.replicate 20 0 ++ DataMessage.serializeMessage ⟨HEADER, 11, 101, 1, [7]⟩)
        DataMessage.mkDefault).1
        = DataMessage.serializeMessage ⟨HEADER, 11, 101, 1, [7]⟩ ∧
      (ipc_check_complete_data_packet
        (List.replicate 20 0 ++ DataMessage.serializeMessage ⟨HEADER, 11, 101, 1, [7]⟩)
        DataMessage.mkDefault).2.group = 255) := by
  decide

/-! ## IPC client callback registry (src/src/APP/octopus_ipc_app_client.cpp)

`g_named_callbacks : std::list<CallbackEntry>` with
`CallbackEntry = {func_name, cb, failure_count}`.  Callback pointers are
modelled as `Nat`, with `0` standing for the null pointer rejected by the
`if (callback)` guard in registration. -/

structure CallbackEntry where
  func_name : Nat
  cb : Nat
  failure_count : Nat
deriving Repr, DecidableEq

/-- `ipc_register_socket_callback`: a non-null callback is appended to the
list with a zero failure count; a null callback is ignored. -/
def ipc_register_socket_callback (fname cb : Nat) (l : List CallbackEntry) :
    List CallbackEntry :=
  if cb ≠ 0 then l ++ [⟨fname, cb, 0⟩] else l

/-- `ipc_unregister_socket_callback`: `std::remove_if` + `erase` drops every
entry whose callback pointer equals the argument. -/
def ipc_unregister_socket_callback (cb : Nat) (l : List CallbackEntry) :
    List CallbackEntry :=
  l.filter (fun e => e.cb != cb)

/-- One dispatch of `ipc_invoke_notify_response`: the list is deep-copied
into `active_callbacks` (`std::make_shared<CallbackEntry>(entry)`), each
copy's callback is invoked on the thread pool, and when a callback raises
the COPY's `failure_count` is incremented; if that copy's count reaches
`FAILURE_THRESHOLD = 3`, entries with the copy's `func_name` are removed
from `g_named_callbacks`.  Returns the new list and the invoked names. -/
def ipc_invoke_notify_response (raises : Nat → Bool)
    (entries : List CallbackEntry) : List CallbackEntry × List Nat :=
  let copies := entries
  (copies.foldl
    (fun acc copy =>
      if raises copy.func_name then
        if copy.failure_count + 1 ≥ 3 then
          acc.filter (fun e => e.func_name != copy.func_name)
        else acc
      else acc)
    entries,
   copies.map (fun c => c.func_name))

/-- **C3.** Code behaviour at the failing input: one registered callback
(name 1) that raises on every invocation.  Because each dispatch increments
the failure counter of a fresh deep copy — never the counter stored in the
list — three raising dispatches leave the stored entry unchanged with its
counter still 0, and a fourth dispatch still invokes the callback. -/
theorem callback_never_removed :
    (ipc_invoke_notify_response (fun _ => true)
      ((ipc_invoke_notify_response (fun _ => true)
        ((ipc_invoke_notify_response (fun _ => true)
          [⟨1, 7, 0⟩]).1)).1)).1 = [⟨1, 7, 0⟩] ∧
    (ipc_invoke_notify_response (fun _ => true)
      ((ipc_invoke_notify_response (fun _ => true)
        ((ipc_invoke_notify_response (fun _ => true)
          ((ipc_invoke_notify_response (fun _ => true)
            [⟨1, 7, 0⟩]).1)).1)).1)).2 = [1] := by
  decide

/-- **C7, counterexample.** If the prior list already holds an entry with
the same callback pointer, register-then-unregister does not restore it:
unregistration removes every entry with that pointer, the pre-existing one
included. -/
theorem register_unregister_not_inverse :
    ipc_unregister_socket_callback 7
      (ipc_register_socket_callback 6 7 [⟨5, 7, 0⟩]) ≠ [⟨5, 7, 0⟩] := by
  decide

/-- **C7, amended.** Provided no entry of the prior list has the registered
callback pointer, registering and immediately unregistering a callback
restores the callback list exactly. -/
theorem register_unregister_roundtrip (fname cb : Nat) (l : List CallbackEntry)
    (h : ∀ e ∈ l, e.cb ≠ cb) :
    ipc_unregister_socket_callback cb
      (ipc_register_socket_callback fname cb l) = l := by
  have hfilter : l.filter (fun e => e.cb != cb) = l :=
    List.filter_eq_self.mpr (fun e he => by
      simpa using h e he)
  unfold ipc_register_socket_callback ipc_unregister_socket_callback
  by_cases hcb : cb = 0
  · simp [hcb] at h ⊢
    simpa [hcb] using hfilter
  · rw [if_pos hcb]
    rw [List.filter_append, hfilter]
    simp

/-- Witness for C7's amended theorem at a concrete list. -/
theorem register_unregister_roundtrip_witness :
    ipc_unregister_socket_callback 2
      (ipc_register_socket_callback 1 2 [⟨5, 7, 0⟩]) = [⟨5, 7, 0⟩] :=
  register_unregister_roundtrip 1 2 [⟨5, 7, 0⟩] (by decide)

/-! ## Thread pool (src/src/IPC/octopus_ipc_threadpool.cpp)

The task queue `task_queue_ : std::deque<std::function<void()>>` is modelled
as a `List Nat` of abstract task identifiers.  `enqueue` and
`enqueue_delayed` mutate the queue identically (the delayed variant merely
wraps the task in a sleep-then-run closure), so one step relation covers
both; a `dequeue` step is the worker removing the front task. -/

inductive TaskOverflowStrategy where
  | DropOldest
  | DropNewest
  | Block
deriving DecidableEq, Repr

/-- One queue transition of the pool.  When the queue has room every
strategy appends (`Block` sleeps in the full case until this guard holds,
so its append only ever fires below the bound); a full queue under
`DropOldest` pops the front before appending (`pop_front` + `emplace_back`);
a full queue under `DropNewest` rejects the task. -/
inductive PoolStep (strat : TaskOverflowStrategy) (maxq : Nat) :
    List Nat → List Nat → Prop where
  | enq_space (q : List Nat) (t : Nat) (h : q.length < maxq) :
      PoolStep strat maxq q (q ++ [t])
  | enq_dropOldest (q : List Nat) (t : Nat) (hs : strat = .DropOldest)
      (hfull : maxq ≤ q.length) : PoolStep strat maxq q (q.tail ++ [t])
  | enq_dropNewest (q : List Nat) (t : Nat) (hs : strat = .DropNewest)
      (hfull : maxq ≤ q.length) : PoolStep strat maxq q q
  | dequeue (t : Nat) (q : List Nat) : PoolStep strat maxq (t :: q) q

/-- Queue states reachable from the empty queue the constructor starts
with, by any sequence of `enqueue` / `enqueue_delayed` / worker dequeues. -/
inductive PoolReachable (strat : TaskOverflowStrategy) (maxq : Nat) :
    List Nat → Prop where
  | init : PoolReachable strat maxq []
  | step (q q' : List Nat) : PoolReachable strat maxq q →
      PoolStep strat maxq q q' → PoolReachable strat maxq q'

/-- **C6.** For a pool with positive `max_queue_size`, under any of the
three overflow strategies and any sequence of enqueue / delayed-enqueue /
dequeue operations, the task queue length never exceeds `max_queue_size`. -/
theorem thread_pool_queue_bounded (strat : TaskOverflowStrategy)
    (maxq : Nat) (q : List Nat) (hpos : 0 < maxq)
    (hr : PoolReachable strat maxq q) : q.length ≤ maxq := by
  induction hr with
  | init => simp
  | step q q' _ hstep ih =>
    cases hstep with
    | enq_space q t h => simp only [List.length_append, List.length_cons, List.length_nil]; omega
    | enq_dropOldest q t hs hfull =>
      have htail : q.tail.length = q.length - 1 := List.length_tail q
      simp only [List.length_append, List.length_cons, List.length_nil, htail]
      omega
    | enq_dropNewest q t hs hfull => exact ih
    | dequeue t q => simp only [List.length_cons] at ih; omega

/-- Witness for C6: a reachable one-element queue in a size-1 pool. -/
theorem thread_pool_queue_bounded_witness : ([5] : List Nat).length ≤ 1 :=
  thread_pool_queue_bounded .DropOldest 1 [5] (by decide)
    (PoolReachable.step [] [5] PoolReachable.init
      (PoolStep.enq_space [] 5 (by decide)))

/-! ## Worker loop exception safety (src/src/IPC/octopus_ipc_threadpool.cpp)

`worker_loop` runs each dequeued task inside
`try { task(); } catch (const std::exception&) {...} catch (...) {...}`.
A task's behaviour is its result: it returns, raises a `std::exception`,
or raises anything else.  The catch blocks turn either raise into a logged
counter, so the loop itself always proceeds to the next task. -/

inductive TaskResult where
  | ok : TaskResult
  | raisesStd : Nat → TaskResult
  | raisesOther : TaskResult
deriving DecidableEq, Repr

structure WorkerOutcome where
  executed : Nat
  loggedStd : Nat
  loggedOther : Nat
deriving DecidableEq, Repr

/-- The worker's processing of a queue of tasks: every task is dequeued and
run; a raising task adds to the corresponding caught-exception log and the
loop continues.  Totality of this function is the embedding of "no
exception propagates out of `worker_loop`". -/
def worker_loop : List TaskResult → WorkerOutcome
  | [] => ⟨0, 0, 0⟩
  | t :: rest =>
    let o := worker_loop rest
    match t with
    | .ok => ⟨o.executed + 1, o.loggedStd, o.loggedOther⟩
    | .raisesStd _ => ⟨o.executed + 1, o.loggedStd + 1, o.loggedOther⟩
    | .raisesOther => ⟨o.executed + 1, o.loggedStd, o.loggedOther + 1⟩

/-- **C9.** Whatever mix of returning and raising tasks is submitted, the
worker executes every one of them — raising tasks are caught and logged,
and processing of the remaining queue continues. -/
theorem worker_loop_survives_exceptions (tasks : List TaskResult) :
    (worker_loop tasks).executed = tasks.length ∧
    (worker_loop tasks).loggedStd + (worker_loop tasks).loggedOther
      = (tasks.filter (fun t => t != TaskResult.ok)).length := by
  induction tasks with
  | nil => exact ⟨rfl, rfl⟩
  | cons t rest ih =>
    cases t with
    | ok =>
      simp only [worker_loop, List.filter_cons, List.length_cons]
      exact ⟨by rw [ih.1], by simpa using ih.2⟩
    | raisesStd e =>
      simp only [worker_loop, List.filter_cons, List.length_cons]
      exact ⟨by rw [ih.1], by simp only [show ((TaskResult.raisesStd e != TaskResult.ok)) = true from rfl, if_pos, List.length_cons]; omega⟩
    | raisesOther =>
      simp only [worker_loop, List.filter_cons, List.length_cons]
      exact ⟨by rw [ih.1], by simp only [show ((TaskResult.raisesOther != TaskResult.ok)) = true from rfl, if_pos, List.length_cons]; omega⟩

/-! ## Server client set (src/src/IPC/octopus_ipc_server.cpp,
octopus_ipc_socket.hpp)

`active_clients : std::unordered_set<ClientInfo>` where `ClientInfo`
equality and hashing are defined solely by `fd`.  The set is modelled as a
list; `insert` is a no-op when an `fd`-equal element is present, exactly as
`unordered_set::insert` behaves under the fd-only equality. -/

structure ClientInfo where
  fd : Nat
  flag : Bool
  ip : String
deriving DecidableEq, Repr

/-- `ipc_server_add_client`: `active_clients.insert(ClientInfo(fd, ip, flag))`;
under fd-only equality the insert is a no-op when the fd is present. -/
def ipc_server_add_client (s : List ClientInfo) (fd : Nat) (ip : String)
    (flag : Bool) : List ClientInfo :=
  if s.any (fun c => c.fd == fd) then s else s ++ [⟨fd, flag, ip⟩]

/-- `ipc_server_remove_client`: scan for the first entry with the fd and
erase it (the loop `break`s after the first hit). -/
def ipc_server_remove_client : List ClientInfo → Nat → List ClientInfo
  | [], _ => []
  | c :: rest, fd =>
    if c.fd = fd then rest else c :: ipc_server_remove_client rest fd

/-- `ipc_server_update_client(fd, new_flag)`: find the entry, erase it, and
re-insert a copy with the updated flag (same fd). -/
def ipc_server_update_client_flag (s : List ClientInfo) (fd : Nat)
    (new_flag : Bool) : List ClientInfo :=
  match s.find? (fun c => c.fd == fd) with
  | some c => ipc_server_add_client (ipc_server_remove_client s fd) fd c.ip new_flag
  | none => s

/-- `ipc_server_update_client(fd, ip)`: find the entry, erase it, and
re-insert a copy with the updated identity string (same fd). -/
def ipc_server_update_client_ip (s : List ClientInfo) (fd : Nat)
    (new_ip : String) : List ClientInfo :=
  match s.find? (fun c => c.fd == fd) with
  | some c => ipc_server_add_client (ipc_server_remove_client s fd) fd new_ip c.flag
  | none => s

/-- The at-most-one-entry-per-fd invariant of the client set. -/
def FdsNodup (s : List ClientInfo) : Prop := (s.map ClientInfo.fd).Nodup

instance : DecidablePred FdsNodup := fun s =>
  inferInstanceAs (Decidable ((s.map ClientInfo.fd).Nodup))

theorem remove_client_sublist (s : List ClientInfo) (fd : Nat) :
    (ipc_server_remove_client s fd).Sublist s := by
  induction s with
  | nil => simp [ipc_server_remove_client]
  | cons c rest ih =>
    simp only [ipc_server_remove_client]
    by_cases h : c.fd = fd
    · rw [if_pos h]; exact (List.sublist_cons_self c rest)
    · rw [if_neg h]; exact ih.cons₂ c

theorem add_client_nodup (s : List ClientInfo) (fd : Nat) (ip : String)
    (flag : Bool) (h : FdsNodup s) :
    FdsNodup (ipc_server_add_client s fd ip flag) := by
  unfold ipc_server_add_client
  by_cases hmem : s.any (fun c => c.fd == fd)
  · rwa [if_pos hmem]
  · rw [if_neg hmem]
    unfold FdsNodup at h ⊢
    rw [List.map_append]
    simp only [List.map_cons, List.map_nil]
    rw [List.nodup_append]
    refine ⟨h, List.nodup_singleton fd, ?_⟩
    intro a ha hb
    simp only [List.mem_singleton] at hb
    subst hb
    rcases List.mem_map.mp ha with ⟨c, hc, hcfd⟩
    exact hmem (List.any_eq_true.mpr ⟨c, hc, by simp [hcfd]⟩)

theorem remove_client_nodup (s : List ClientInfo) (fd : Nat)
    (h : FdsNodup s) : FdsNodup (ipc_server_remove_client s fd) :=
  List.Nodup.sublist (List.Sublist.map ClientInfo.fd (remove_client_sublist s fd)) h

/-- **C10.** Each client-set operation — adding on accept, removing on
disconnect, and updating the subscription flag or identity string by
erase-and-reinsert — preserves the invariant that no two entries share a
file descriptor. -/
theorem client_set_fd_unique (s : List ClientInfo) (fd : Nat) (ip : String)
    (flag nf : Bool) (nip : String) (h : FdsNodup s) :
    FdsNodup (ipc_server_add_client s fd ip flag) ∧
    FdsNodup (ipc_server_remove_client s fd) ∧
    FdsNodup (ipc_server_update_client_flag s fd nf) ∧
    FdsNodup (ipc_server_update_client_ip s fd nip) := by
  refine ⟨add_client_nodup s fd ip flag h, remove_client_nodup s fd h, ?_, ?_⟩
  · unfold ipc_server_update_client_flag
    cases hf : s.find? (fun c => c.fd == fd) with
    | none => exact h
    | some c => exact add_client_nodup _ fd c.ip nf (remove_client_nodup s fd h)
  · unfold ipc_server_update_client_ip
    cases hf : s.find? (fun c => c.fd == fd) with
    | none => exact h
    | some c => exact add_client_nodup _ fd nip c.flag (remove_client_nodup s fd h)

/-- Witness for C10 at a concrete two-client set. -/
theorem client_set_fd_unique_witness :
    FdsNodup (ipc_server_add_client [⟨1, true, "a"⟩, ⟨2, false, "b"⟩] 3 "c" true) ∧
    FdsNodup (ipc_server_remove_client [⟨1, true, "a"⟩, ⟨2, false, "b"⟩] 3) ∧
    FdsNodup (ipc_server_update_client_flag [⟨1, true, "a"⟩, ⟨2, false, "b"⟩] 3 false) ∧
    FdsNodup (ipc_server_update_client_ip [⟨1, true, "a"⟩, ⟨2, false, "b"⟩] 3 "d") :=
  client_set_fd_unique [⟨1, true, "a"⟩, ⟨2, false, "b"⟩] 3 "c" true false "d"
    (by decide)

/-! ## Server fan-out (src/src/IPC/octopus_ipc_server.cpp)

The snapshot getters `otsm_get_meter_info` &c. are resolved through `dlsym`
from the OTSM shared library, so the snapshot bytes enter the model as a
parameter `getInfo : Nat → Option (List Nat)` (per snapshot command;
`none` is the `nullptr` the sender rejects).  The server file's own
`DataMessage` duplicate (fields `msg_group`/`msg_id`/`msg_length`) is not
under src/; per the spec it shares the 2-byte big-endian wire format, so
its serializer is the `serializeMessage` above. -/

def MSG_GROUP_CAR : Nat := 11

def CMD_GET_INDICATOR_INFO : Nat := 100
def CMD_GET_METER_INFO : Nat := 101
def CMD_GET_DRIVINFO_INFO : Nat := 102

/-- `ipc_server_send_car_info_to_client`: a `nullptr` snapshot is rejected;
otherwise a `DataMessage` with group `MSG_GROUP_CAR`, id `msg` and the raw
record bytes is built, serialized and written to the client's socket.  The
result is the list of (fd, bytes) writes performed. -/
def ipc_server_send_car_info_to_client (client_fd : Nat) (msg : Nat)
    (car_info : Option (List Nat)) : List (Nat × List Nat) :=
  match car_info with
  | none => []
  | some payload =>
    [(client_fd,
      DataMessage.serializeMessage
        ⟨HEADER, MSG_GROUP_CAR, msg, payload.length, payload⟩)]

/-- `ipc_server_notify_carInfor_to_client`: dispatch on the snapshot
command; unknown commands fall through the `default` branch and send
nothing. -/
def ipc_server_notify_carInfor_to_client (getInfo : Nat → Option (List Nat))
    (client_fd : Nat) (cmd : Nat) : List (Nat × List Nat) :=
  if cmd = CMD_GET_INDICATOR_INFO ∨ cmd = CMD_GET_METER_INFO
      ∨ cmd = CMD_GET_DRIVINFO_INFO then
    ipc_server_send_car_info_to_client client_fd cmd (getInfo cmd)
  else []

/-- `ipc_server_CarInforNotify_Callback`: iterate the client set and notify
each client whose subscription flag is set. -/
def ipc_server_CarInforNotify_Callback (getInfo : Nat → Option (List Nat))
    (clients : List ClientInfo) (cmd : Nat) : List (Nat × List Nat) :=
  (clients.filter (fun c => c.flag)).flatMap
    (fun c => ipc_server_notify_carInfor_to_client getInfo c.fd cmd)

/-- **C8.** For a snapshot command with an available snapshot and a client
set with unique fds: the fan-out writes the serialized snapshot message to
every client whose subscription flag is set, and writes nothing to any
client whose flag is clear. -/
theorem fanout_exactly_subscribed (getInfo : Nat → Option (List Nat))
    (clients : List ClientInfo) (cmd : Nat) (payload : List Nat)
    (c : ClientInfo)
    (hcmd : cmd = CMD_GET_INDICATOR_INFO ∨ cmd = CMD_GET_METER_INFO
      ∨ cmd = CMD_GET_DRIVINFO_INFO)
    (hinfo : getInfo cmd = some payload)
    (hnodup : FdsNodup clients) (hc : c ∈ clients) :
    (c.flag = true →
      (c.fd, DataMessage.serializeMessage
        ⟨HEADER, MSG_GROUP_CAR, cmd, payload.length, payload⟩)
        ∈ ipc_server_CarInforNotify_Callback getInfo clients cmd) ∧
    (c.flag = false → ∀ bytes,
      (c.fd, bytes) ∉ ipc_server_CarInforNotify_Callback getInfo clients cmd) := by
  have hnotify : ∀ fd, ipc_server_notify_carInfor_to_client getInfo fd cmd
      = [(fd, DataMessage.serializeMessage
          ⟨HEADER, MSG_GROUP_CAR, cmd, payload.length, payload⟩)] := by
    intro fd
    unfold ipc_server_notify_carInfor_to_client
    rw [if_pos hcmd]
    unfold ipc_server_send_car_info_to_client
    rw [hinfo]
  constructor
  · intro hflag
    unfold ipc_server_CarInforNotify_Callback
    refine List.mem_flatMap.mpr ⟨c, List.mem_filter.mpr ⟨hc, by simp [hflag]⟩, ?_⟩
    rw [hnotify]
    exact List.mem_singleton.mpr rfl
  · intro hflag bytes hmem
    unfold ipc_server_CarInforNotify_Callback at hmem
    rcases List.mem_flatMap.mp hmem with ⟨c', hc', hsent⟩
    rcases List.mem_filter.mp hc' with ⟨hc'mem, hc'flag⟩
    rw [hnotify] at hsent
    have hfd : c'.fd = c.fd := by
      have h1 := List.mem_singleton.mp hsent
      exact (congrArg Prod.fst h1).symm
    have hceq : c' = c :=
      List.inj_on_of_nodup_map hnodup hc'mem hc hfd
    rw [hceq] at hc'flag
    simp [hflag] at hc'flag

/-- Witness for C8 at a concrete client set: the subscribed client with
fd 1 is written the meter snapshot, the unsubscribed client with fd 2 is
written nothing. -/
theorem fanout_exactly_subscribed_witness :
    ((1 : Nat), DataMessage.serializeMessage
      ⟨HEADER, MSG_GROUP_CAR, CMD_GET_METER_INFO, 2, [0, 80]⟩)
      ∈ ipc_server_CarInforNotify_Callback (fun _ => some [0, 80])
        [⟨1, true, "a"⟩, ⟨2, false, "b"⟩] CMD_GET_METER_INFO ∧
    ∀ bytes, ((2 : Nat), bytes) ∉ ipc_server_CarInforNotify_Callback
      (fun _ => some [0, 80]) [⟨1, true, "a"⟩, ⟨2, false, "b"⟩]
      CMD_GET_METER_INFO :=
  ⟨(fanout_exactly_subscribed (fun _ => some [0, 80])
      [⟨1, true, "a"⟩, ⟨2, false, "b"⟩] CMD_GET_METER_INFO [0, 80]
      ⟨1, true, "a"⟩ (Or.inr (Or.inl rfl)) rfl (by decide)
      (by decide)).1 rfl,
   (fanout_exactly_subscribed (fun _ => some [0, 80])
      [⟨1, true, "a"⟩, ⟨2, false, "b"⟩] CMD_GET_METER_INFO [0, 80]
      ⟨2, false, "b"⟩ (Or.inr (Or.inl rfl)) rfl (by decide)
      (by decide)).2 rfl⟩

/-! ## CarInfo meter receive handler (src/octopus_carinfor.c)

The headers `octopus_carinfor.h` / `octopus_platform.h` /
`octopus_msgqueue.h` are not under src/.  Modelled from the spec: the
meter record's fields (§3 vehicle model), the `MK_WORD` big-endian pairing
of two bytes, and the PTL frame-type / command / task-message tags, which
the handler only compares for equality.  `CMD_GET_METER_INFO = 101`
matches both the server-side `octopus_ipc_cmd.hpp` and the spec's message
catalogue.  `CARINFOR_PTL_NO_ACK` is defined at the top of
octopus_carinfor.c, so the ack-building branches are compiled out. -/

/-- Modelled from the spec: the meter record of the vehicle data model. -/
structure carinfo_meter_t where
  speed_real : Nat
  speed : Nat
  rpm : Nat
  soc : Nat
  voltage : Nat
  current : Nat
  voltageSystem : Nat
deriving DecidableEq, Repr

/-- Modelled from the spec: `MK_WORD(hi, lo)` forms the big-endian word. -/
def MK_WORD (hi lo : Nat) : Nat := hi * 256 + lo

/-- Modelled from the spec: PTL frame-type tags (direction + module packed
into one byte; the handler only tests them for equality). -/
inductive ptl_frame_type_t where
  | M2A_MOD_METER
  | A2M_MOD_METER
  | otherType (n : Nat)
deriving DecidableEq, Repr

/-- Modelled from the spec: meter-module command tags. -/
inductive ptl_cmd_t where
  | CMD_MODMETER_RPM_SPEED
  | CMD_MODMETER_SOC
  | otherCmd (n : Nat)
deriving DecidableEq, Repr

/-- Modelled from the spec: destination task ids of `send_message`. -/
inductive task_id_t where
  | TASK_ID_IPC_SOCKET
  | TASK_ID_PTL
  | otherTask (n : Nat)
deriving DecidableEq, Repr

/-- Modelled from the spec: task-message ids. -/
inductive msg_id_t where
  | MSG_DEVICE_CAR_INFOR_EVENT
  | otherMsg (n : Nat)
deriving DecidableEq, Repr

/-- A task message as posted by `send_message(task, msg, param1, param2)`. -/
structure TaskMessage where
  task : task_id_t
  msgid : msg_id_t
  param1 : Nat
  param2 : Nat
deriving DecidableEq, Repr

/-- `meter_module_receive_handler`: A2M frames are acks and ignored
(returning false); an M2A `CMD_MODMETER_RPM_SPEED` frame updates
`speed_real`, `rpm` and the displayed `speed`, posts
`MSG_DEVICE_CAR_INFOR_EVENT` with `CMD_GET_METER_INFO` to the IPC task and
returns true; an M2A `CMD_MODMETER_SOC` frame does the analogous SoC
update.  Result: (updated meter record, posted task messages, return
value). -/
def meter_module_receive_handler (frame_type : ptl_frame_type_t)
    (cmd : ptl_cmd_t) (data : List Nat) (meter : carinfo_meter_t) :
    carinfo_meter_t × List TaskMessage × Bool :=
  match frame_type, cmd with
  | .A2M_MOD_METER, .CMD_MODMETER_RPM_SPEED => (meter, [], false)
  | .A2M_MOD_METER, .CMD_MODMETER_SOC => (meter, [], false)
  | .M2A_MOD_METER, .CMD_MODMETER_RPM_SPEED =>
    let speed_real := MK_WORD (data.getD 0 0) (data.getD 1 0)
    let rpm := MK_WORD (data.getD 2 0) (data.getD 3 0)
    ({ meter with
        speed_real := speed_real
        rpm := rpm
        speed := speed_real * 11 / 10 },
     [⟨.TASK_ID_IPC_SOCKET, .MSG_DEVICE_CAR_INFOR_EVENT, CMD_GET_METER_INFO, 0⟩],
     true)
  | .M2A_MOD_METER, .CMD_MODMETER_SOC =>
    ({ meter with
        soc := data.getD 0 0
        voltage := MK_WORD (data.getD 1 0) (data.getD 2 0)
        current := MK_WORD (data.getD 3 0) (data.getD 4 0)
        voltageSystem := data.getD 5 0 },
     [⟨.TASK_ID_IPC_SOCKET, .MSG_DEVICE_CAR_INFOR_EVENT, CMD_GET_METER_INFO, 0⟩],
     true)
  | _, _ => (meter, [], false)

/-- **C4.** An M2A meter frame with command `CMD_MODMETER_RPM_SPEED` and
payload `d0 d1 d2 d3` sets `speed_real = d0*256+d1`,
`speed = speed_real*11/10` (integer division), `rpm = d2*256+d3`, posts the
`MSG_DEVICE_CAR_INFOR_EVENT` / `CMD_GET_METER_INFO` notification to the IPC
task and returns true; and on the IPC side `CMD_GET_METER_INFO` produces
the group-11 / msg-101 snapshot message. -/
theorem meter_rpm_speed_handler (d0 d1 d2 d3 : Nat)
    (meter : carinfo_meter_t) :
    (meter_module_receive_handler .M2A_MOD_METER .CMD_MODMETER_RPM_SPEED
      [d0, d1, d2, d3] meter).1.speed_real = d0 * 256 + d1 ∧
    (meter_module_receive_handler .M2A_MOD_METER .CMD_MODMETER_RPM_SPEED
      [d0, d1, d2, d3] meter).1.speed = (d0 * 256 + d1) * 11 / 10 ∧
    (meter_module_receive_handler .M2A_MOD_METER .CMD_MODMETER_RPM_SPEED
      [d0, d1, d2, d3] meter).1.rpm = d2 * 256 + d3 ∧
    (meter_module_receive_handler .M2A_MOD_METER .CMD_MODMETER_RPM_SPEED
      [d0, d1, d2, d3] meter).2.1
      = [⟨.TASK_ID_IPC_SOCKET, .MSG_DEVICE_CAR_INFOR_EVENT, CMD_GET_METER_INFO, 0⟩] ∧
    (meter_module_receive_handler .M2A_MOD_METER .CMD_MODMETER_RPM_SPEED
      [d0, d1, d2, d3] meter).2.2 = true ∧
    (∀ (getInfo : Nat → Option (List Nat)) (fd : Nat) (payload : List Nat),
      getInfo CMD_GET_METER_INFO = some payload →
      ipc_server_notify_carInfor_to_client getInfo fd CMD_GET_METER_INFO
        = [(fd, DataMessage.serializeMessage
            ⟨HEADER, MSG_GROUP_CAR, CMD_GET_METER_INFO, payload.length, payload⟩)]) := by
  refine ⟨rfl, rfl, rfl, rfl, rfl, ?_⟩
  intro getInfo fd payload hinfo
  unfold ipc_server_notify_carInfor_to_client
  rw [if_pos (Or.inr (Or.inl rfl))]
  unfold ipc_server_send_car_info_to_client
  rw [hinfo]

/-- Witness for C4 at the spec's concrete frame `00 50 00 C8`
(speed = 80, rpm = 200): `speed_real = 80`, `speed = 88`, `rpm = 200`,
and the IPC snapshot message for `CMD_GET_METER_INFO` carries group 11,
msg 101. -/
theorem meter_rpm_speed_handler_witness :
    (meter_module_receive_handler .M2A_MOD_METER .CMD_MODMETER_RPM_SPEED
      [0, 80, 0, 200] ⟨0, 0, 0, 0, 0, 0, 0⟩).1.speed = 88 ∧
    ipc_server_notify_carInfor_to_client (fun _ => some [0, 80]) 3
      CMD_GET_METER_INFO
      = [(3, DataMessage.serializeMessage ⟨HEADER, 11, 101, 2, [0, 80]⟩)] := by
  have h := meter_rpm_speed_handler 0 80 0 200 ⟨0, 0, 0, 0, 0, 0, 0⟩
  exact ⟨h.2.1, h.2.2.2.2.2 (fun _ => some [0, 80]) 3 [0, 80] rfl⟩

end Octopus
